import Mathlib

/-!
Verification development for the thrift-gen-rpc-swagger OpenAPI document
compiler (src/generator/generator.go).  The Go source is shallowly embedded:
the parsed IDL model (services, functions, struct descriptors, fields,
annotations) is a plain data type, the generator's mutable state
(requiredSchemas / generatedSchemas) is threaded explicitly, and the
potentially non-terminating nested-struct recursion is indexed by fuel.
Helper functions that live in the repository's utils/ package (outside the
sources under study) are modelled from the specification and marked as such
in their doc comments.
-/

namespace ThriftSwagger

/-! ## IDL-side data model (thriftgo parser / thrift_reflection view) -/

/-- Field/return types as used by schemaOrReferenceForField: primitives by
name, containers by value type, and struct references by struct name. -/
inductive TypeDesc where
  | prim (name : String)
  | structRef (name : String)
  | listT (value : TypeDesc)
  | mapT (value : TypeDesc)
  deriving DecidableEq, Repr

/-- Name reported by TypeDescriptor.GetName. -/
def TypeDesc.typeName : TypeDesc → String
  | .prim n => n
  | .structRef n => n
  | .listT _ => "list"
  | .mapT _ => "map"

def TypeDesc.isStruct : TypeDesc → Bool
  | .structRef _ => true
  | _ => false

def TypeDesc.isList : TypeDesc → Bool
  | .listT _ => true
  | _ => false

def TypeDesc.isMap : TypeDesc → Bool
  | .mapT _ => true
  | _ => false

/-- Modelled from the spec: parseOverride for the openapi.parameter field
annotation (utils.ParseFieldOption / utils.MergeStructs live in the
repository's utils package, outside the generator source under study).
Each set field of the override replaces the generated value. -/
structure ParameterPatch where
  name : Option String := none
  paramIn : Option String := none
  description : Option String := none
  required : Option Bool := none
  deriving DecidableEq, Repr

/-- A thrift field: name, type, doc comment and its annotation map
(Go map[string][]string, modelled as an association list). The
paramPatch component stands for a parsed openapi.parameter override
payload (absent when the annotation is absent). -/
structure Field where
  name : String
  type : TypeDesc
  comments : String := ""
  annotations : List (String × List String) := []
  paramPatch : Option ParameterPatch := none
  deriving DecidableEq, Repr

/-- Annotation lookup on a field (Go: field.Annotations[key]); none models a
missing key. -/
def annOf (anns : List (String × List String)) (key : String) : Option (List String) :=
  (anns.find? (fun p => p.1 = key)).map (fun p => p.2)

/-- A struct descriptor (parser.StructLike and the reflection
StructDescriptor coincide in content; the model uses one type for both).
requiredOverride models the Required list of a parsed openapi.schema
override (utils.ParseStructOption, outside the generator source);
an absent annotation is the empty list. -/
structure StructDesc where
  name : String
  fields : List Field := []
  comments : String := ""
  requiredOverride : List String := []
  deriving DecidableEq, Repr

/-- A service function.  httpAnns is the HTTP-verb map produced by
utils.GetAnnotations(f.Annotations, HttpMethodAnnotations): pairs of
(verb string, first annotation value = path).  The Go code ranges over
that map, whose iteration order is unspecified, so the model carries the
iteration order as part of the input; determinism claims quantify over
permutations of it. -/
structure ServiceFunction where
  name : String
  comments : String := ""
  annotations : List (String × List String) := []
  args : List String := []
  funcTypeName : String := ""
  httpAnns : List (String × String) := []
  deriving DecidableEq, Repr

structure Service where
  name : String
  comments : String := ""
  annotations : List (String × List String) := []
  functions : List ServiceFunction := []
  deriving DecidableEq, Repr

/-- The parsed IDL model: the ast services and the struct registry
(ast.GetStructLikes / fileDesc.GetStructDescriptor are both name-keyed
views of the same set of structs). -/
structure Model where
  services : List Service := []
  structs : List StructDesc := []
  deriving DecidableEq, Repr

/-- Name lookup in the struct registry (GetStructDescriptor /
getStructLikeByName); none models a nil result. -/
def lookupStruct (env : Model) (name : String) : Option StructDesc :=
  env.structs.find? (fun s => s.name = name)

/-! ## Annotation keys (generator.go constants) -/

def ApiQuery : String := "api.query"
def ApiForm : String := "api.form"
def ApiPath : String := "api.path"
def ApiHeader : String := "api.header"
def ApiCookie : String := "api.cookie"
def ApiBody : String := "api.body"
def ApiRawBody : String := "api.raw_body"
def ApiBaseDomain : String := "api.base_domain"
def ApiBaseURL : String := "api.baseurl"

/-! ## OpenAPI output model (the subset built by the generator) -/

structure Server where
  url : String
  deriving DecidableEq, Repr

structure Tag where
  name : String
  description : String := ""
  deriving DecidableEq, Repr

/-- SchemaOrReference: either a $ref or an inline schema with the fields the
generator writes (type, format, description, properties, required, items,
additionalProperties).  The items list and the additionalProperties slot may
hold nil schema pointers in Go, hence the inner Option. -/
inductive SchemaOrRef where
  | ref (xref : String)
  | schema (type format description : String)
      (properties : List (String × SchemaOrRef))
      (required : List String)
      (items : Option (List (Option SchemaOrRef)))
      (addProps : Option (Option SchemaOrRef))
  deriving Repr

/-- Go: fieldSchema.IsSetSchema() followed by assignment to
fieldSchema.Schema.Description; a $ref is left unchanged. -/
def SchemaOrRef.setDescription (s : SchemaOrRef) (d : String) : SchemaOrRef :=
  match s with
  | .ref x => .ref x
  | .schema t f _ props req items ap => .schema t f d props req items ap

structure Parameter where
  name : String
  paramIn : String
  description : String
  required : Bool
  schema : Option SchemaOrRef
  deriving Repr

structure Header where
  description : String
  schema : Option SchemaOrRef
  deriving Repr

/-- The bare openapi.Schema value produced by getSchemaByOption (always an
object schema: type, properties and required list). -/
structure ObjSchema where
  type : String := "object"
  description : String := ""
  properties : List (String × SchemaOrRef) := []
  required : List String := []
  deriving Repr

def ObjSchema.toSchemaOrRef (s : ObjSchema) : SchemaOrRef :=
  .schema s.type "" s.description s.properties s.required none none

structure RequestBody where
  description : String
  content : List (String × SchemaOrRef)
  deriving Repr

/-- The single generated response entry (name is always "200"). -/
structure ResponseEntry where
  name : String
  description : String
  headers : Option (List (String × Header))
  content : Option (List (String × SchemaOrRef))
  deriving Repr

structure Operation where
  tags : List String := []
  description : String := ""
  operationID : String := ""
  parameters : List Parameter := []
  requestBody : Option RequestBody := none
  responses : Option ResponseEntry := none
  servers : List Server := []
  deriving Repr

structure PathItem where
  get : Option Operation := none
  post : Option Operation := none
  put : Option Operation := none
  delete : Option Operation := none
  patch : Option Operation := none
  options : Option Operation := none
  head : Option Operation := none
  servers : List Server := []
  deriving Repr

structure NamedPathItem where
  name : String
  value : PathItem
  deriving Repr

structure Document where
  openapi : String := ""
  infoTitle : String := ""
  infoDescription : String := ""
  infoVersion : String := ""
  servers : List Server := []
  tags : List Tag := []
  paths : List NamedPathItem := []
  components : List (String × SchemaOrRef) := []
  deriving Repr

/-- Generator state: the two-set discipline of the schema dependency
resolver (g.requiredSchemas and g.generatedSchemas). -/
structure GenState where
  required : List String := []
  generated : List String := []
  deriving DecidableEq, Repr

/-! ## Helpers modelled from the spec (utils package, outside src/generator) -/

/-- Modelled from the spec: utils.AppendUnique keeps an ordered,
de-duplicated list, appending only when the element is absent. -/
def appendUnique (l : List String) (x : String) : List String :=
  if l.contains x then l else l ++ [x]

/-- Comment strings in the model stand for the output of the regex-based
filterCommentString normalizer (Comment/Doc Normalizer, spec section 2);
no claim under study depends on comment normalization, so the normalized
text is carried through unchanged. -/
def filterCommentString (s : String) : String := s

/-- Modelled from the spec: utils.MergeStructs applied to a Parameter and a
parsed openapi.parameter override; every field the override sets replaces
the generated one, the rest are kept. -/
def mergeParameter (p : Parameter) (patch : Option ParameterPatch) : Parameter :=
  match patch with
  | none => p
  | some q =>
      { name := q.name.getD p.name
        paramIn := q.paramIn.getD p.paramIn
        description := q.description.getD p.description
        required := q.required.getD p.required
        schema := p.schema }

/-! ## Type-to-schema mapper (schemaOrReferenceForField) -/

/-- The fixed primitive table of schemaOrReferenceForField (the chain of
name checks in generator.go); an unknown name leaves the schema nil. -/
def primSchema (n : String) : Option SchemaOrRef :=
  if n = "string" then some (.schema "string" "" "" [] [] none none)
  else if n = "binary" then some (.schema "string" "binary" "" [] [] none none)
  else if n = "bool" then some (.schema "boolean" "" "" [] [] none none)
  else if n = "byte" then some (.schema "string" "byte" "" [] [] none none)
  else if n = "double" then some (.schema "number" "double" "" [] [] none none)
  else if n = "i8" then some (.schema "integer" "int8" "" [] [] none none)
  else if n = "i16" then some (.schema "integer" "int16" "" [] [] none none)
  else if n = "i32" then some (.schema "integer" "int32" "" [] [] none none)
  else if n = "i64" then some (.schema "integer" "int64" "" [] [] none none)
  else none

/-- schemaReferenceForMessage plus the surrounding struct branch of
schemaOrReferenceForField, and the recursive container cases.  The
requiredSchemas list is threaded explicitly.  An unresolvable struct
descriptor returns nil immediately (the field will be skipped by callers);
a resolvable struct registers its name as required and yields a $ref,
which a primitive-named struct would still overwrite, mirroring the
sequential name checks of the source. -/
def schemaOrReferenceForField (env : Model) :
    TypeDesc → List String → Option SchemaOrRef × List String
  | .structRef n, req =>
      match lookupStruct env n with
      | none => (none, req)
      | some _ =>
          let req' := appendUnique req n
          let base : Option SchemaOrRef := some (.ref ("#/components/schemas/" ++ n))
          match primSchema n with
          | some s => (some s, req')
          | none => (base, req')
  | .prim n, req => (primSchema n, req)
  | .mapT v, req =>
      let (ks, req') := schemaOrReferenceForField env v req
      (some (.schema "object" "" "" [] [] none (some ks)), req')
  | .listT v, req =>
      let (ks, req') := schemaOrReferenceForField env v req
      (some (.schema "array" "" "" [] [] (some [ks]) none), req')

/-! ## getSchemaByOption -/

/-- One step of the field loop of getSchemaByOption: the accumulated
properties, the accumulated required list and the threaded
requiredSchemas list. -/
def getSchemaFieldStep (env : Model) (option : String) (allRequired : List String)
    (acc : List (String × SchemaOrRef) × List String × List String) (f : Field) :
    List (String × SchemaOrRef) × List String × List String :=
  let (props, required, req) := acc
  match annOf f.annotations option with
  | none => (props, required, req)
  | some vs =>
      let extName :=
        match vs with
        | v :: _ => if v ≠ "" then v else f.name
        | [] => f.name
      let required := if allRequired.contains extName then required ++ [extName] else required
      let (fs, req) := schemaOrReferenceForField env f.type req
      match fs with
      | none => (props, required, req)
      | some fs' =>
          (props ++ [(extName, fs'.setDescription (filterCommentString f.comments))], required, req)

/-- getSchemaByOption: collect the fields of the (possibly nil) input struct
that carry the given body-bucket annotation into an object schema.  The
merge of a full openapi.schema override is outside the model; its Required
list is carried by StructDesc.requiredOverride. -/
def getSchemaByOption (env : Model) (inputDesc : Option StructDesc) (option : String)
    (req : List String) : ObjSchema × List String :=
  let allRequired := match inputDesc with | some s => s.requiredOverride | none => []
  let fields := match inputDesc with | some s => s.fields | none => []
  let (props, required, req) :=
    fields.foldl (getSchemaFieldStep env option allRequired) ([], [], req)
  ({ type := "object", description := "", properties := props, required := required }, req)

/-! ## Parameter building (the per-field part of buildOperation) -/

/-- The mutable locals of the parameter loop of buildOperation, plus the
threaded requiredSchemas list. -/
structure ParamAcc where
  name : String := ""
  paramIn : String := ""
  description : String := ""
  required : Bool := false
  schema : Option SchemaOrRef := none
  req : List String

/-- One location-annotation block of the parameter loop (query / path /
cookie / header): when the annotation is present with a non-empty first
value it overwrites name, location, description and schema; the path block
additionally forces required.  The openapi.property merge onto the field
schema is outside the model. -/
def locBlock (env : Model) (f : Field) (key inStr : String) (forceReq : Bool)
    (acc : ParamAcc) : ParamAcc :=
  match annOf f.annotations key with
  | some (ext :: _) =>
      if ext ≠ "" then
        let (fs, req') := schemaOrReferenceForField env f.type acc.req
        { name := ext
          paramIn := inStr
          description := filterCommentString f.comments
          required := if forceReq then true else acc.required
          schema := fs
          req := req' }
      else acc
  | _ => acc

/-- The body of the parameter loop for one input field: the four location
blocks in source order (query, path, cookie, header), the openapi.parameter
override merge, and the final guard on the pre-merge name and location
locals. -/
def buildParam (env : Model) (f : Field) (req : List String) :
    Option Parameter × List String :=
  let acc : ParamAcc := { req := req }
  let acc := locBlock env f ApiQuery "query" false acc
  let acc := locBlock env f ApiPath "path" true acc
  let acc := locBlock env f ApiCookie "cookie" false acc
  let acc := locBlock env f ApiHeader "header" false acc
  let parameter : Parameter :=
    { name := acc.name
      paramIn := acc.paramIn
      description := acc.description
      required := acc.required
      schema := acc.schema }
  let parameter := mergeParameter parameter f.paramPatch
  (if acc.name ≠ "" ∧ acc.paramIn ≠ "" then some parameter else none, acc.req)

/-- The whole parameter loop over the input struct's fields. -/
def buildParameters (env : Model) (fields : List Field) (req : List String) :
    List Parameter × List String :=
  fields.foldl
    (fun (acc : List Parameter × List String) f =>
      let (ps, req) := acc
      let (p?, req) := buildParam env f req
      match p? with
      | some p => (ps ++ [p], req)
      | none => (ps, req))
    ([], req)

/-! ## Schema/operation attachment to the document -/

/-- addSchemaToDocument: record the schema under its name unless a schema of
that name was already generated. -/
def addSchemaToDocument (st : GenState) (d : Document) (name : String)
    (value : SchemaOrRef) : GenState × Document :=
  if st.generated.contains name then (st, d)
  else
    ({ st with generated := st.generated ++ [name] },
     { d with components := d.components ++ [(name, value)] })

/-- The switch of addOperationToDocument: set the slot for the given verb;
a verb without a case (notably ANY) leaves the path item unchanged. -/
def setSlot (item : PathItem) (methodName : String) (op : Operation) : PathItem :=
  if methodName = "GET" then { item with get := some op }
  else if methodName = "POST" then { item with post := some op }
  else if methodName = "PUT" then { item with put := some op }
  else if methodName = "DELETE" then { item with delete := some op }
  else if methodName = "PATCH" then { item with patch := some op }
  else if methodName = "OPTIONS" then { item with options := some op }
  else if methodName = "HEAD" then { item with head := some op }
  else item

/-- Replace the first path item with the given name (the Go code mutates the
first match through a pointer). -/
def updateFirstPath (paths : List NamedPathItem) (name : String)
    (g : PathItem → PathItem) : List NamedPathItem :=
  match paths with
  | [] => []
  | npi :: rest =>
      if npi.name = name then { npi with value := g npi.value } :: rest
      else npi :: updateFirstPath rest name g

/-- addOperationToDocument: find or create the path item for the path, then
set the operation on the verb's slot. -/
def addOperationToDocument (d : Document) (op : Operation) (path : String)
    (methodName : String) : Document :=
  if d.paths.any (fun npi => npi.name = path) then
    { d with paths := updateFirstPath d.paths path (fun item => setSlot item methodName op) }
  else
    { d with paths := d.paths ++ [⟨path, setSlot {} methodName op⟩] }

/-! ## Response building (getResponseForStruct) -/

/-- The header loop of getResponseForStruct; the schema call threads the
requiredSchemas list. -/
def responseHeaders (env : Model) (fields : List Field) (req : List String) :
    List (String × Header) × List String :=
  fields.foldl
    (fun (acc : List (String × Header) × List String) f =>
      let (hs, req) := acc
      match annOf f.annotations ApiHeader with
      | some (ext :: _) =>
          if ext ≠ "" then
            let (fs, req') := schemaOrReferenceForField env f.type req
            (hs ++ [(ext, { description := filterCommentString f.comments, schema := fs })], req')
          else (hs, req)
      | _ => (hs, req))
    ([], req)

/-- getResponseForStruct: response headers from api.header fields, and
content buckets from api.body / api.raw_body fields; a non-empty bucket
registers the output struct itself as a component schema and refers to it
by $ref.  Returns the fixed status name "200". -/
def getResponseForStruct (env : Model) (st : GenState) (d : Document)
    (desc : StructDesc) :
    (String × List (String × Header) × List (String × SchemaOrRef)) × GenState × Document :=
  let (headers, req) := responseHeaders env desc.fields st.required
  let (bodySchema, req) := getSchemaByOption env (some desc) ApiBody req
  let (rawBodySchema, req) := getSchemaByOption env (some desc) ApiRawBody req
  let st := { st with required := req }
  let xref := "#/components/schemas/" ++ desc.name
  let (content, st, d) :=
    if bodySchema.properties.length > 0 then
      let (st, d) := addSchemaToDocument st d desc.name bodySchema.toSchemaOrRef
      ([("application/json", SchemaOrRef.ref xref)], st, d)
    else ([], st, d)
  let (content, st, d) :=
    if rawBodySchema.properties.length > 0 then
      let (st, d) := addSchemaToDocument st d desc.name rawBodySchema.toSchemaOrRef
      (content ++ [("application/octet-stream", SchemaOrRef.ref xref)], st, d)
    else (content, st, d)
  (("200", headers, content), st, d)

/-! ## Path template normalization -/

def isWordChar (c : Char) : Bool := c.isAlpha || c.isDigit || c = '_'

/-- Character-level model of the global regex replacement of colon-style
placeholders: every occurrence of a colon followed by a maximal non-empty
run of word characters is rewritten to the run in braces.  Fuel is the
input length; each step consumes at least one character. -/
def pathRewriteAux (fuel : Nat) (l : List Char) : List Char :=
  match fuel with
  | 0 => l
  | fuel + 1 =>
      match l with
      | [] => []
      | ':' :: rest =>
          let run := rest.takeWhile isWordChar
          if run.isEmpty then ':' :: pathRewriteAux fuel rest
          else '{' :: (run ++ '}' :: pathRewriteAux fuel (rest.dropWhile isWordChar))
      | c :: rest => c :: pathRewriteAux fuel rest

def pathRewrite (s : String) : String := ⟨pathRewriteAux s.data.length s.data⟩

/-! ## buildOperation -/

/-- The scheme normalization applied to a non-empty host annotation. -/
def normalizeHost (host : String) : String :=
  if !(host.startsWith "http://") && !(host.startsWith "https://") then "http://" ++ host
  else host

/-- buildOperation: parameters from the input struct's fields, a request
body (only for verbs other than GET/HEAD/DELETE) bucketed by the three
body annotations, the response derived from the output struct, the
path placeholder rewrite, and an optional single-entry server list from
the host annotation.  The openapi.operation override merge applied by the
caller is outside the model. -/
def buildOperation (env : Model) (methodName description operationID tagName
    path host : String) (inputDesc : Option StructDesc) (outputDesc : StructDesc)
    (st : GenState) (d : Document) :
    (Operation × String) × GenState × Document :=
  let inFields := match inputDesc with | some s => s.fields | none => []
  let (parameters, req) := buildParameters env inFields st.required
  let st := { st with required := req }
  let (requestBody, st) :=
    if methodName ≠ "GET" ∧ methodName ≠ "HEAD" ∧ methodName ≠ "DELETE" then
      let (bodySchema, req) := getSchemaByOption env inputDesc ApiBody st.required
      let (formSchema, req) := getSchemaByOption env inputDesc ApiForm req
      let (rawBodySchema, req) := getSchemaByOption env inputDesc ApiRawBody req
      let st := { st with required := req }
      let addProps :=
        (if bodySchema.properties.length > 0 then
          [("application/json", bodySchema.toSchemaOrRef)] else []) ++
        (if formSchema.properties.length > 0 then
          [("multipart/form-data", formSchema.toSchemaOrRef)] else []) ++
        (if rawBodySchema.properties.length > 0 then
          [("application/octet-stream", rawBodySchema.toSchemaOrRef)] else [])
      if addProps.length > 0 then
        (some { description :=
                  filterCommentString (match inputDesc with | some s => s.comments | none => "")
                content := addProps }, st)
      else (none, st)
    else (none, st)
  let ((name200, headers, content), st, d) := getResponseForStruct env st d outputDesc
  let desc := filterCommentString outputDesc.comments
  let desc := if desc = "" then "Successful response" else desc
  let headerOrEmpty := if headers.length ≠ 0 then some headers else none
  let contentOrEmpty := if content.length ≠ 0 then some content else none
  let responses :=
    if headerOrEmpty.isSome ∨ contentOrEmpty.isSome then
      some { name := name200, description := desc,
             headers := headerOrEmpty, content := contentOrEmpty }
    else none
  let path := pathRewrite path
  let op : Operation :=
    { tags := [tagName]
      description := description
      operationID := operationID
      parameters := parameters
      responses := responses
      requestBody := requestBody
      servers := if host ≠ "" then [⟨normalizeHost host⟩] else [] }
  ((op, path), st, d)

/-! ## addPathsToDocument -/

/-- Host resolution for one function: the api.baseurl annotation on the
function, falling back to the api.base_domain annotation on the service. -/
def resolveHost (s : Service) (f : ServiceFunction) : String :=
  let hostOrNil := annOf f.annotations ApiBaseURL
  let host := match hostOrNil with
    | some (v :: _) => v
    | some [] => ""
    | none => ""
  if host = "" then
    match annOf s.annotations ApiBaseDomain with
    | some (v :: _) => v
    | _ => ""
  else host

/-- The body of the verb loop for one function: skip empty verb names,
count the annotation, resolve the host, build the operation and attach it.
A nil output struct descriptor makes the Go code dereference nil inside
getResponseForStruct; the model returns none there. -/
def processVerb (env : Model) (s : Service) (f : ServiceFunction)
    (inputDesc : Option StructDesc) (acc : Nat × GenState × Document)
    (mp : String × String) : Option (Nat × GenState × Document) :=
  let (count, st, d) := acc
  let (methodName, path) := mp
  if methodName = "" then some acc
  else do
    let host := resolveHost s f
    let outputDesc ← lookupStruct env f.funcTypeName
    let comment := filterCommentString f.comments
    let operationID := s.name ++ "_" ++ f.name
    let ((op, path2), st, d) :=
      buildOperation env methodName comment operationID s.name path host inputDesc outputDesc st d
    let d := addOperationToDocument d op path2 methodName
    some (count + 1, st, d)

/-- The function loop body of addPathsToDocument: functions without a verb
annotation are skipped; otherwise the first argument's type is resolved to
the input struct (nil-safe) and every verb entry is processed. -/
def processFunction (env : Model) (s : Service) (acc : Nat × GenState × Document)
    (f : ServiceFunction) : Option (Nat × GenState × Document) :=
  let rs := f.httpAnns
  if rs.length = 0 then some acc
  else
    let inputDesc :=
      match f.args with
      | [] => none
      | a :: _ => lookupStruct env a
    rs.foldlM (processVerb env s f inputDesc) acc

/-- The service loop body of addPathsToDocument: process every function,
then contribute a tag when at least one verb annotation was counted. -/
def processService (env : Model) (acc : GenState × Document) (s : Service) :
    Option (GenState × Document) := do
  let (st, d) := acc
  let (count, st, d) ← s.functions.foldlM (processFunction env s) (0, st, d)
  let d :=
    if count > 0 then
      { d with tags := d.tags ++ [{ name := s.name, description := filterCommentString s.comments }] }
    else d
  some (st, d)

def addPathsToDocument (env : Model) (st : GenState) (d : Document) :
    Option (GenState × Document) :=
  env.services.foldlM (processService env) (st, d)

/-! ## Schema dependency resolution (addSchemasForStructsToDocument) -/

/-- The struct-typed fields of a struct resolved to their descriptors, nil
results included (Go appends the possibly-nil getStructLikeByName result). -/
def nestedStructs (env : Model) (fields : List Field) : List (Option StructDesc) :=
  (fields.filter (fun f => f.type.isStruct)).map
    (fun f => lookupStruct env f.type.typeName)

/-- The per-field property of the schema body built by
addSchemasForStructsToDocument: the threaded requiredSchemas list, the
skip of unresolvable fields, the description, and the rename taken from
the last of the header/body/form/raw_body annotations present with a
non-empty first value. -/
def structSchemaFieldStep (env : Model)
    (acc : List (String × SchemaOrRef) × List String) (f : Field) :
    List (String × SchemaOrRef) × List String :=
  let (props, req) := acc
  let (fs, req) := schemaOrReferenceForField env f.type req
  match fs with
  | none => (props, req)
  | some fs' =>
      let fs' := fs'.setDescription (filterCommentString f.comments)
      let extName :=
        [ApiHeader, ApiBody, ApiForm, ApiRawBody].foldl
          (fun n opt =>
            match annOf f.annotations opt with
            | some (v :: _) => if v ≠ "" then v else n
            | _ => n)
          f.name
      (props ++ [(extName, fs')], req)

/-- Emission of one struct's component schema when it is required and not
yet generated (the two-set check of the fixed-point loop).  The merge of a
full openapi.schema override is outside the model. -/
def emitStruct (env : Model) (st : GenState) (d : Document) (s : StructDesc) :
    GenState × Document :=
  if ¬ st.required.contains s.name ∨ st.generated.contains s.name then (st, d)
  else
    let (props, req) := s.fields.foldl (structSchemaFieldStep env) ([], st.required)
    let st := { st with required := req }
    let schema : SchemaOrRef :=
      .schema "object" "" (filterCommentString s.comments) props [] none none
    addSchemaToDocument st d s.name schema

/-- addSchemasForStructsToDocument: for every struct in the list, first
recurse into the structs referenced by its fields (the nested-struct walk
of the source, which has no visited-set guard), then emit the struct
itself if required.  The Go recursion is unbounded; the model indexes it
by fuel, and a run that returns none for every fuel diverges in the
source. -/
def addSchemasForStructs (env : Model) :
    Nat → List (Option StructDesc) → GenState → Document → Option (GenState × Document)
  | _, [], st, d => some (st, d)
  | 0, _ :: _, _, _ => none
  | fuel + 1, so :: rest, st, d => do
      let sFields := match so with | some s => s.fields | none => []
      let (st, d) ← addSchemasForStructs env fuel (nestedStructs env sFields) st d
      let (st, d) :=
        match so with
        | some s => emitStruct env st d s
        | none => (st, d)
      addSchemasForStructs env fuel rest st d

/-- The fixed-point loop of BuildDocument: while requiredSchemas is
non-empty, walk all known structs and then drop the names that were
outstanding at the start of the pass. -/
def schemaLoop (env : Model) :
    Nat → GenState → Document → Option (GenState × Document)
  | 0, st, d => if st.required.isEmpty then some (st, d) else none
  | fuel + 1, st, d =>
      if st.required.isEmpty then some (st, d)
      else do
        let count := st.required.length
        let (st, d) ← addSchemasForStructs env fuel (env.structs.map some) st d
        schemaLoop env fuel { st with required := st.required.drop count } d

/-! ## Post-processing passes of BuildDocument -/

/-- The single-tag promotion pass: with exactly one tag, promote its name and
description onto a missing info title/description, then clear the tag's
description. -/
def tagPromote (d : Document) : Document :=
  match d.tags with
  | [t] =>
      let d := if d.infoTitle = "" ∧ t.name ≠ "" then { d with infoTitle := t.name ++ " API" } else d
      let d := if d.infoDescription = "" then { d with infoDescription := t.description } else d
      { d with tags := [{ t with description := "" }] }
  | _ => d

/-- Collection of one operation's single server URL into the per-path and
global lists (appendUnique on both). -/
def collectOp (o : Option Operation) (acc : List String × List String) :
    List String × List String :=
  match o with
  | some op =>
      match op.servers with
      | [srv] => (appendUnique acc.1 srv.url, appendUnique acc.2 srv.url)
      | _ => acc
  | none => acc

def clearOpServers : Option Operation → Option Operation
  | some op => some { op with servers := [] }
  | none => none

/-- The per-path part of the server pass: collect the single-server URLs of
the get/post/put/delete/patch operations (options and head are not
inspected by the source), and when exactly one URL was found hoist it to
the path level and clear it from those five slots. -/
def serverPassPath (acc : List NamedPathItem × List String) (npi : NamedPathItem) :
    List NamedPathItem × List String :=
  let (done, allServers) := acc
  let v := npi.value
  let sa := collectOp v.get ([], allServers)
  let sa := collectOp v.post sa
  let sa := collectOp v.put sa
  let sa := collectOp v.delete sa
  let sa := collectOp v.patch sa
  let (servers, allServers) := sa
  let v :=
    match servers with
    | [u] =>
        { v with servers := [⟨u⟩]
                 get := clearOpServers v.get
                 post := clearOpServers v.post
                 put := clearOpServers v.put
                 delete := clearOpServers v.delete
                 patch := clearOpServers v.patch }
    | _ => v
  (done ++ [{ npi with value := v }], allServers)

/-- The server pass of BuildDocument: per-path hoisting, the document-level
server list from all URLs seen, and the clearing of every path-level server
when the global list is a single URL. -/
def serverPass (d : Document) : Document :=
  let (paths, allServers) := d.paths.foldl serverPassPath ([], [])
  let d := { d with paths := paths }
  let d :=
    if allServers.length > 0 then { d with servers := allServers.map (fun u => ⟨u⟩) } else d
  if allServers.length = 1 then
    { d with paths := d.paths.map (fun npi => { npi with value := { npi.value with servers := [] } }) }
  else d

/-- Lexicographic strict comparison of character lists by code point, the
model of Go's byte-wise string comparison (UTF-8 byte order coincides with
code-point order). -/
def charListLt : List Char → List Char → Bool
  | [], [] => false
  | [], _ :: _ => true
  | _ :: _, [] => false
  | a :: as, b :: bs =>
      if a.toNat < b.toNat then true
      else if b.toNat < a.toNat then false
      else charListLt as bs

def strLt (a b : String) : Bool := charListLt a.data b.data

/-- The non-strict order induced by the sort comparator (sort.Slice with a
strict less function leaves the slice pairwise non-descending). -/
def strLe (a b : String) : Bool := !(strLt b a)

/-- The three final sorts (tags, paths, component schemas) by name. -/
def sortPasses (d : Document) : Document :=
  { d with
      tags := d.tags.insertionSort (fun a b => strLe a.name b.name = true)
      paths := d.paths.insertionSort (fun a b => strLe a.name b.name = true)
      components := d.components.insertionSort (fun a b => strLe a.1 b.1 = true) }

/-- BuildDocument: the fixed header, the path pass, the schema fixed-point
loop (fuel-indexed), and the post-processing passes in source order.  The
document-level override merge (getDocumentOption) applies only when an
openapi.document annotation is present and is outside the model; none
models a run that panics or diverges. -/
def buildDocument (env : Model) (fuel : Nat) : Option Document := do
  let d : Document :=
    { openapi := "3.0.3", infoTitle := "API", infoDescription := "API description",
      infoVersion := "1.0.0" }
  let (st, d) ← addPathsToDocument env {} d
  let (_, d) ← schemaLoop env fuel st d
  some (sortPasses (serverPass (tagPromote d)))

/-! ## Theorems -/

/-- C2: For every method exposed under the GET, HEAD, or DELETE HTTP verb,
the generated operation has no request body, regardless of which
body-bucket annotations (json-body, form-body, raw-body) are present on
the fields of its input struct. -/
theorem c2_no_body_for_get_head_delete (env : Model)
    (methodName description operationID tagName path host : String)
    (inputDesc : Option StructDesc) (outputDesc : StructDesc)
    (st : GenState) (d : Document)
    (h : methodName = "GET" ∨ methodName = "HEAD" ∨ methodName = "DELETE") :
    ((buildOperation env methodName description operationID tagName path host
        inputDesc outputDesc st d).1.1).requestBody = none := by
  rcases h with h | h | h <;> subst h <;> rfl

/-- C2 witness: a concrete GET operation over a struct whose fields carry
all three body-bucket annotations still has no request body. -/
theorem c2_no_body_for_get_head_delete_witness :
    ("GET" = "GET" ∨ "GET" = "HEAD" ∨ "GET" = "DELETE") ∧
    ((buildOperation { structs := [{ name := "In", fields :=
        [{ name := "a", type := .prim "string", annotations := [(ApiBody, ["a"])] },
         { name := "b", type := .prim "string", annotations := [(ApiForm, ["b"])] },
         { name := "c", type := .prim "binary", annotations := [(ApiRawBody, ["c"])] }] }] }
      "GET" "" "op" "S" "/x" ""
      (some { name := "In", fields :=
        [{ name := "a", type := .prim "string", annotations := [(ApiBody, ["a"])] },
         { name := "b", type := .prim "string", annotations := [(ApiForm, ["b"])] },
         { name := "c", type := .prim "binary", annotations := [(ApiRawBody, ["c"])] }] })
      { name := "Out" } {} {}).1.1).requestBody = none :=
  ⟨Or.inl rfl,
   c2_no_body_for_get_head_delete _ "GET" "" "op" "S" "/x" "" _ _ {} {} (Or.inl rfl)⟩

/-! Order facts for the sort comparator and the by-name sort relations. -/

theorem charListLt_asymm : ∀ (a b : List Char),
    charListLt a b = true → charListLt b a = false := by
  intro a
  induction a with
  | nil => intro b h; cases b <;> simp_all [charListLt]
  | cons x xs ih =>
      intro b h
      cases b with
      | nil => simp [charListLt] at h
      | cons y ys =>
          simp only [charListLt] at h ⊢
          by_cases h1 : x.toNat < y.toNat
          · simp [h1, show ¬ y.toNat < x.toNat by omega]
          · by_cases h2 : y.toNat < x.toNat
            · simp [h1, h2] at h
            · simp only [h1, h2, if_false, reduceIte] at h ⊢
              simp [ih ys h]

theorem charListLt_conn : ∀ (a b c : List Char), charListLt a c = true →
    charListLt a b = true ∨ charListLt b c = true := by
  intro a
  induction a with
  | nil =>
      intro b c h
      cases c with
      | nil => simp [charListLt] at h
      | cons y ys =>
          cases b with
          | nil => right; simp [charListLt]
          | cons z zs => left; simp [charListLt]
  | cons x xs ih =>
      intro b c h
      cases c with
      | nil => simp [charListLt] at h
      | cons y ys =>
          cases b with
          | nil => right; simp [charListLt]
          | cons z zs =>
              simp only [charListLt] at h ⊢
              by_cases h1 : x.toNat < z.toNat
              · left; simp [h1]
              · by_cases h2 : z.toNat < y.toNat
                · right; simp [h2]
                · by_cases h3 : x.toNat < y.toNat
                  · omega
                  · by_cases h4 : y.toNat < x.toNat
                    · simp [h3, h4] at h
                    · simp only [h3, h4, if_false, reduceIte] at h
                      rcases ih zs ys h with h5 | h5
                      · left
                        simp [h1, show ¬ z.toNat < x.toNat by omega, h5]
                      · right
                        simp [h2, show ¬ y.toNat < z.toNat by omega, h5]

theorem strLe_total (a b : String) : strLe a b = true ∨ strLe b a = true := by
  unfold strLe strLt
  by_cases h : charListLt b.data a.data = true
  · right
    simp [charListLt_asymm _ _ h]
  · left
    simp_all

theorem strLe_trans {a b c : String} (h1 : strLe a b = true) (h2 : strLe b c = true) :
    strLe a c = true := by
  unfold strLe strLt at *
  simp only [Bool.not_eq_true'] at h1 h2 ⊢
  by_contra hne
  have hlt : charListLt c.data a.data = true := by
    cases hcb : charListLt c.data a.data
    · exact absurd hcb hne
    · rfl
  rcases charListLt_conn c.data b.data a.data hlt with h | h
  · rw [h] at h2; cases h2
  · rw [h] at h1; cases h1

instance : IsTotal Tag (fun a b => strLe a.name b.name = true) :=
  ⟨fun a b => strLe_total a.name b.name⟩

instance : IsTrans Tag (fun a b => strLe a.name b.name = true) :=
  ⟨fun _ _ _ hab hbc => strLe_trans hab hbc⟩

instance : IsTotal NamedPathItem (fun a b => strLe a.name b.name = true) :=
  ⟨fun a b => strLe_total a.name b.name⟩

instance : IsTrans NamedPathItem (fun a b => strLe a.name b.name = true) :=
  ⟨fun _ _ _ hab hbc => strLe_trans hab hbc⟩

instance : IsTotal (String × SchemaOrRef) (fun a b => strLe a.1 b.1 = true) :=
  ⟨fun a b => strLe_total a.1 b.1⟩

instance : IsTrans (String × SchemaOrRef) (fun a b => strLe a.1 b.1 = true) :=
  ⟨fun _ _ _ hab hbc => strLe_trans hab hbc⟩

/-- C5: In every document returned by the assembler, the tags list, the
paths list, and the component-schema list are each sorted lexicographically
ascending by name (strLe is the non-strict order induced by Go's byte-wise
string comparison). -/
theorem c5_sorted_output (env : Model) (fuel : Nat) (d : Document)
    (h : buildDocument env fuel = some d) :
    List.Sorted (fun a b : Tag => strLe a.name b.name = true) d.tags ∧
    List.Sorted (fun a b : NamedPathItem => strLe a.name b.name = true) d.paths ∧
    List.Sorted (fun a b : String × SchemaOrRef => strLe a.1 b.1 = true) d.components := by
  simp only [buildDocument, bind, Option.bind_eq_some] at h
  obtain ⟨⟨st1, d1⟩, _, h⟩ := h
  obtain ⟨⟨st2, d2⟩, _, h⟩ := h
  obtain rfl : sortPasses (serverPass (tagPromote d2)) = d := Option.some.inj h
  exact ⟨List.sorted_insertionSort _ _, List.sorted_insertionSort _ _,
    List.sorted_insertionSort _ _⟩

def c5WitnessDoc : Document :=
  { openapi := "3.0.3", infoTitle := "API", infoDescription := "API description",
    infoVersion := "1.0.0" }

/-- C5 witness: the document generated from the empty model is sorted. -/
theorem c5_sorted_output_witness :
    buildDocument {} 1 = some c5WitnessDoc ∧
    (List.Sorted (fun a b : Tag => strLe a.name b.name = true) c5WitnessDoc.tags ∧
     List.Sorted (fun a b : NamedPathItem => strLe a.name b.name = true) c5WitnessDoc.paths ∧
     List.Sorted (fun a b : String × SchemaOrRef => strLe a.1 b.1 = true) c5WitnessDoc.components) :=
  ⟨rfl, c5_sorted_output {} 1 c5WitnessDoc rfl⟩

/-! Spec-side view of the location annotations: a location annotation fires
exactly when it is present with a non-empty first value. -/

/-- The effective value of a location annotation on a field: the first
annotation value when it is present and non-empty. -/
def locAnnVal (f : Field) (key : String) : Option String :=
  match annOf f.annotations key with
  | some (v :: _) => if v ≠ "" then some v else none
  | _ => none

def locAnnPresent (f : Field) (key : String) : Bool := (locAnnVal f key).isSome

/-- The location of the latest-evaluated location annotation present on the
field, in the fixed evaluation order query, path, cookie, header (the
spec's last-match-wins rule, I2). -/
def lastLocAnn (f : Field) : Option String :=
  match locAnnVal f ApiHeader with
  | some _ => some "header"
  | none =>
    match locAnnVal f ApiCookie with
    | some _ => some "cookie"
    | none =>
      match locAnnVal f ApiPath with
      | some _ => some "path"
      | none =>
        match locAnnVal f ApiQuery with
        | some _ => some "query"
        | none => none

theorem locAnnVal_eq_some (f : Field) (key v : String) :
    locAnnVal f key = some v ↔
      ((∃ t, annOf f.annotations key = some (v :: t)) ∧ v ≠ "") := by
  unfold locAnnVal
  cases h : annOf f.annotations key with
  | none => simp
  | some l =>
      cases l with
      | nil => simp
      | cons a t =>
          by_cases ha : a = ""
          · subst ha
            simp only [ne_eq, not_true_eq_false, if_false, reduceIte]
            constructor
            · intro h'; cases h'
            · rintro ⟨⟨t', ht⟩, hv⟩
              cases ht
              exact absurd rfl hv
          · simp [ha]
            intro h'
            subst h'
            exact ha

/-- locBlock rewritten through locAnnVal: the block fires exactly when the
annotation is present with a non-empty first value. -/
theorem locBlock_eq (env : Model) (f : Field) (key inStr : String) (forceReq : Bool)
    (acc : ParamAcc) :
    locBlock env f key inStr forceReq acc =
      match locAnnVal f key with
      | some v =>
          { name := v
            paramIn := inStr
            description := filterCommentString f.comments
            required := if forceReq then true else acc.required
            schema := (schemaOrReferenceForField env f.type acc.req).1
            req := (schemaOrReferenceForField env f.type acc.req).2 }
      | none => acc := by
  unfold locBlock locAnnVal
  cases h : annOf f.annotations key with
  | none => rfl
  | some l =>
      cases l with
      | nil => rfl
      | cons a t => by_cases ha : a = "" <;> simp [ha]

/-- Upper bound for the parameter loop: each field contributes at most one
parameter. -/
theorem buildParameters_le (env : Model) (fields : List Field) (req : List String) :
    ((buildParameters env fields req).1).length ≤ fields.length := by
  have key : ∀ (fields : List Field) (ps : List Parameter) (req : List String),
      ((fields.foldl
        (fun (acc : List Parameter × List String) f =>
          let (ps, req) := acc
          let (p?, req) := buildParam env f req
          match p? with
          | some p => (ps ++ [p], req)
          | none => (ps, req)) (ps, req)).1).length ≤ ps.length + fields.length := by
    intro fields
    induction fields with
    | nil => intro ps req; simp
    | cons f fs ih =>
        intro ps req
        simp only [List.foldl_cons]
        cases hp : (buildParam env f req).1 with
        | none =>
            calc _ ≤ ps.length + fs.length := by simpa [hp] using ih ps (buildParam env f req).2
            _ ≤ ps.length + (fs.length + 1) := by omega
        | some p =>
            calc _ ≤ (ps ++ [p]).length + fs.length := by
                  simpa [hp] using ih (ps ++ [p]) (buildParam env f req).2
            _ ≤ ps.length + (fs.length + 1) := by simp; omega
  simpa using key fields [] req

/-- C3: For every input field of an operation, the field contributes at most
one parameter, and when several location annotations (query, path, cookie,
header) are present on the same field they are evaluated in the fixed order
query, path, cookie, header and the last annotation present (with a
non-empty first value) wins: the emitted parameter's location is that of
the latest-evaluated annotation. -/
theorem c3_last_location_wins (env : Model) (f : Field) (req : List String)
    (hp : f.paramPatch = none) :
    ((buildParam env f req).1.map (fun p => p.paramIn) = lastLocAnn f) ∧
    (∀ (fields : List Field) (req' : List String),
      ((buildParameters env fields req').1).length ≤ fields.length) := by
  refine ⟨?_, fun fields req' => buildParameters_le env fields req'⟩
  unfold buildParam lastLocAnn
  simp only [locBlock_eq]
  rcases hq : locAnnVal f ApiQuery with _ | vq <;>
    rcases hpp : locAnnVal f ApiPath with _ | vp <;>
      rcases hc : locAnnVal f ApiCookie with _ | vc <;>
        rcases hh : locAnnVal f ApiHeader with _ | vh <;>
          simp_all [locAnnVal_eq_some, mergeParameter]

def c3WField : Field :=
  { name := "x", type := .prim "string",
    annotations := [(ApiQuery, ["q"]), (ApiPath, ["p"]), (ApiCookie, ["c"]), (ApiHeader, ["h"])] }

/-- C3 witness: a field carrying all four location annotations emits one
parameter located at the latest-evaluated one, header. -/
theorem c3_last_location_wins_witness :
    ((buildParam {} c3WField []).1.map (fun p => p.paramIn) = lastLocAnn c3WField) ∧
    lastLocAnn c3WField = some "header" :=
  ⟨(c3_last_location_wins {} c3WField [] rfl).1, rfl⟩

/-- C4: Every field annotated as a path parameter appears in the operation's
parameter list with required = true, even without any explicit requiredness
override; fields in the other locations default to not-required. -/
theorem c4_path_required (env : Model) (f : Field) (req : List String)
    (hp : f.paramPatch = none) :
    (locAnnPresent f ApiPath = true →
      ∃ p, (buildParam env f req).1 = some p ∧ p.required = true) ∧
    (locAnnPresent f ApiPath = false →
      ∀ p, (buildParam env f req).1 = some p → p.required = false) := by
  unfold locAnnPresent
  unfold buildParam
  simp only [locBlock_eq]
  rcases hq : locAnnVal f ApiQuery with _ | vq <;>
    rcases hpp : locAnnVal f ApiPath with _ | vp <;>
      rcases hc : locAnnVal f ApiCookie with _ | vc <;>
        rcases hh : locAnnVal f ApiHeader with _ | vh <;>
          simp_all [locAnnVal_eq_some, mergeParameter]

def c4WField : Field :=
  { name := "x", type := .prim "i64", annotations := [(ApiPath, ["id"])] }

/-- C4 witness: a field with only a path annotation yields a required
parameter. -/
theorem c4_path_required_witness :
    ∃ p, (buildParam {} c4WField []).1 = some p ∧ p.required = true :=
  (c4_path_required {} c4WField [] rfl).1 rfl

/-- C10: For every field carrying both a path-location annotation and a
later-evaluated location annotation (cookie or header), the single emitted
parameter has the later location but keeps required = true, because the
requiredness flag set by the path branch is never reset by the later
branches. -/
theorem c10_later_location_keeps_required (env : Model) (f : Field) (req : List String)
    (hp : f.paramPatch = none)
    (hpath : locAnnPresent f ApiPath = true)
    (hlater : locAnnPresent f ApiCookie = true ∨ locAnnPresent f ApiHeader = true) :
    ∃ p, (buildParam env f req).1 = some p ∧ p.required = true ∧
      p.paramIn = (if locAnnPresent f ApiHeader then "header" else "cookie") := by
  unfold locAnnPresent at hpath hlater ⊢
  unfold buildParam
  simp only [locBlock_eq]
  rcases hq : locAnnVal f ApiQuery with _ | vq <;>
    rcases hpp : locAnnVal f ApiPath with _ | vp <;>
      rcases hc : locAnnVal f ApiCookie with _ | vc <;>
        rcases hh : locAnnVal f ApiHeader with _ | vh <;>
          simp_all [locAnnVal_eq_some, mergeParameter]

def c10WField : Field :=
  { name := "x", type := .prim "string",
    annotations := [(ApiPath, ["id"]), (ApiHeader, ["hid"])] }

/-- C10 witness: a field with path and header annotations emits a header
parameter that is still required. -/
theorem c10_later_location_keeps_required_witness :
    ∃ p, (buildParam {} c10WField []).1 = some p ∧ p.required = true ∧
      p.paramIn = (if locAnnPresent c10WField ApiHeader then "header" else "cookie") :=
  c10_later_location_keeps_required {} c10WField [] rfl rfl (Or.inr rfl)

/-! Preservation facts used to track the document through buildOperation. -/

theorem addSchemaToDocument_preserves (st : GenState) (d : Document) (n : String)
    (v : SchemaOrRef) :
    (addSchemaToDocument st d n v).2.paths = d.paths ∧
    (addSchemaToDocument st d n v).2.tags = d.tags := by
  unfold addSchemaToDocument
  split <;> exact ⟨rfl, rfl⟩

theorem getResponseForStruct_preserves (env : Model) (st : GenState) (d : Document)
    (desc : StructDesc) :
    (getResponseForStruct env st d desc).2.2.paths = d.paths ∧
    (getResponseForStruct env st d desc).2.2.tags = d.tags := by
  unfold getResponseForStruct addSchemaToDocument
  dsimp only
  repeat' split
  all_goals exact ⟨rfl, rfl⟩

theorem buildOperation_preserves (env : Model)
    (methodName description operationID tagName path host : String)
    (inputDesc : Option StructDesc) (outputDesc : StructDesc)
    (st : GenState) (d : Document) :
    ((buildOperation env methodName description operationID tagName path host
        inputDesc outputDesc st d).2.2).paths = d.paths ∧
    ((buildOperation env methodName description operationID tagName path host
        inputDesc outputDesc st d).2.2).tags = d.tags := by
  unfold buildOperation
  dsimp only
  exact getResponseForStruct_preserves env _ d outputDesc

theorem buildOperation_path (env : Model)
    (methodName description operationID tagName path host : String)
    (inputDesc : Option StructDesc) (outputDesc : StructDesc)
    (st : GenState) (d : Document) :
    (buildOperation env methodName description operationID tagName path host
        inputDesc outputDesc st d).1.2 = pathRewrite path := by
  unfold buildOperation
  dsimp only

/-- C9: For every method whose only HTTP-verb annotation is the any-verb
marker (api.any, mapped to verb string "ANY"), an operation is built and a
path item for its path is created, but the operation is attached to no
HTTP-method slot of that path item (the attach switch has no ANY case),
while the enclosing service still contributes a tag because the annotation
is counted. -/
theorem c9_any_verb_empty_path_item (env : Model) (s : Service) (f : ServiceFunction)
    (p : String) (out : StructDesc) (st : GenState) (d : Document)
    (hs : s.functions = [f])
    (hf : f.httpAnns = [("ANY", p)])
    (hout : lookupStruct env f.funcTypeName = some out)
    (hpaths : d.paths = []) (htags : d.tags = []) :
    ∃ st' d', processService env (st, d) s = some (st', d') ∧
      d'.paths.map (fun npi => npi.name) = [pathRewrite p] ∧
      (∀ npi ∈ d'.paths, npi.value.get = none ∧ npi.value.post = none ∧
        npi.value.put = none ∧ npi.value.delete = none ∧ npi.value.patch = none ∧
        npi.value.options = none ∧ npi.value.head = none) ∧
      d'.tags.map Tag.name = [s.name] := by
  have hbp := buildOperation_preserves env "ANY" (filterCommentString f.comments)
    (s.name ++ "_" ++ f.name) s.name p (resolveHost s f)
    (match f.args with | [] => none | a :: _ => lookupStruct env a) out st d
  have hbpath := buildOperation_path env "ANY" (filterCommentString f.comments)
    (s.name ++ "_" ++ f.name) s.name p (resolveHost s f)
    (match f.args with | [] => none | a :: _ => lookupStruct env a) out st d
  simp only [processService, hs, List.foldlM_cons, List.foldlM_nil, processFunction, hf,
    List.length_cons, List.length_nil, processVerb, hout, Option.bind_eq_bind,
    Option.bind_some, Option.some_bind, Option.bind_none, Option.none_bind, pure]
  rw [hbpath]
  simp only [addOperationToDocument, hbp.1, hbp.2, hpaths, htags]
  simp only [setSlot, List.any_nil, Bool.false_eq_true, if_false, List.nil_append,
    String.reduceEq, reduceIte, Nat.add_eq_zero, one_ne_zero, and_false, gt_iff_lt,
    Nat.lt_add_one, if_true, zero_lt_one, Option.some_bind, List.nil_append]
  simp only [Option.some.injEq, Prod.mk.injEq]
  exact ⟨_, _, ⟨rfl, rfl⟩, by simp, by simp, by simp⟩

def c9WOut : StructDesc := { name := "Resp" }

def c9WFun : ServiceFunction :=
  { name := "H1", funcTypeName := "Resp", httpAnns := [("ANY", "/x")] }

def c9WService : Service := { name := "S", functions := [c9WFun] }

def c9WEnv : Model := { services := [c9WService], structs := [c9WOut] }

/-- C9 witness: a concrete service with one api.any method yields a path
item with every slot empty and still contributes its tag. -/
theorem c9_any_verb_empty_path_item_witness :
    ∃ st' d', processService c9WEnv ({}, {}) c9WService = some (st', d') ∧
      d'.paths.map (fun npi => npi.name) = [pathRewrite "/x"] ∧
      (∀ npi ∈ d'.paths, npi.value.get = none ∧ npi.value.post = none ∧
        npi.value.put = none ∧ npi.value.delete = none ∧ npi.value.patch = none ∧
        npi.value.options = none ∧ npi.value.head = none) ∧
      d'.tags.map Tag.name = [c9WService.name] :=
  c9_any_verb_empty_path_item c9WEnv c9WService c9WFun "/x" c9WOut {} {}
    rfl rfl rfl rfl rfl

def c8Good : Field :=
  { name := "good", type := .prim "string", annotations := [(ApiBody, ["g"])] }

def c8Bad : Field :=
  { name := "bad", type := .structRef "Nope", annotations := [(ApiBody, ["b"])] }

def c8In : StructDesc := { name := "In8", fields := [c8Good, c8Bad] }

def c8Fun : ServiceFunction :=
  { name := "F8", args := ["In8"], funcTypeName := "Resp8", httpAnns := [("POST", "/p8")] }

def c8WEnv : Model :=
  { services := [{ name := "S8", functions := [c8Fun] }],
    structs := [c8In, { name := "Resp8" }] }

/-- C8: When a field's struct-typed reference cannot be resolved to a struct
descriptor, that field's entry is omitted from the generated schema while
its siblings are kept, and document generation continues and still returns
a document (the failure is local, not fatal). -/
theorem c8_unresolvable_field_skipped (env : Model) (S : StructDesc)
    (n v w : String) (t1 t2 : List String) (f1 f2 : Field) (opt : String)
    (req : List String)
    (hfields : S.fields = [f1, f2])
    (hty1 : f1.type = .prim "string")
    (hann1 : annOf f1.annotations opt = some (v :: t1))
    (hv : v ≠ "")
    (hty2 : f2.type = .structRef n)
    (hlook : lookupStruct env n = none)
    (hann2 : annOf f2.annotations opt = some (w :: t2)) :
    ((getSchemaByOption env (some S) opt req).1.properties.map Prod.fst = [v]) ∧
    (buildDocument c8WEnv 1).isSome = true := by
  refine ⟨?_, rfl⟩
  simp only [getSchemaByOption, hfields, List.foldl_cons, List.foldl_nil]
  simp only [getSchemaFieldStep, hann1, hann2, hty1, hty2, hv, hlook,
    schemaOrReferenceForField, primSchema, ne_eq, not_false_eq_true, if_true, reduceIte]
  simp

/-- C8 witness: the concrete model with one resolvable and one unresolvable
api.body field keeps only the resolvable property and the document is still
produced. -/
theorem c8_unresolvable_field_skipped_witness :
    ((getSchemaByOption c8WEnv (some c8In) ApiBody []).1.properties.map Prod.fst = ["g"]) ∧
    (buildDocument c8WEnv 1).isSome = true :=
  c8_unresolvable_field_skipped c8WEnv c8In "Nope" "g" "b" [] [] c8Good c8Bad ApiBody []
    rfl rfl rfl (by decide) rfl rfl rfl

/-! Two runs on the same IDL.  The Go source ranges over the verb-annotation
map of each function (a Go map, whose iteration order is unspecified), so
two runs on the same IDL are modelled as two models equal everywhere except
that each function's httpAnns lists are permutations of each other. -/

def FunctionRunEquiv (f g : ServiceFunction) : Prop :=
  f.name = g.name ∧ f.comments = g.comments ∧ f.annotations = g.annotations ∧
  f.args = g.args ∧ f.funcTypeName = g.funcTypeName ∧ f.httpAnns.Perm g.httpAnns

def ServiceRunEquiv (s t : Service) : Prop :=
  s.name = t.name ∧ s.comments = t.comments ∧ s.annotations = t.annotations ∧
  List.Forall₂ FunctionRunEquiv s.functions t.functions

def ModelRunEquiv (m1 m2 : Model) : Prop :=
  List.Forall₂ ServiceRunEquiv m1.services m2.services ∧ m1.structs = m2.structs

def c6Resp : StructDesc := { name := "Resp6" }

def c6F1 : ServiceFunction :=
  { name := "F1", annotations := [(ApiBaseURL, ["h1"])], funcTypeName := "Resp6",
    httpAnns := [("POST", "/a"), ("GET", "/b")] }

def c6F1x : ServiceFunction := { c6F1 with httpAnns := [("GET", "/b"), ("POST", "/a")] }

def c6F2 : ServiceFunction :=
  { name := "F2", annotations := [(ApiBaseURL, ["h2"])], funcTypeName := "Resp6",
    httpAnns := [("GET", "/a")] }

def c6M1 : Model :=
  { services := [{ name := "S6", functions := [c6F1, c6F2] }], structs := [c6Resp] }

def c6M2 : Model :=
  { services := [{ name := "S6", functions := [c6F1x, c6F2] }], structs := [c6Resp] }

/-- C6 counterexample: two runs on the same IDL (the verb map of one method
iterated in the two possible orders) produce documents that differ in the
order of the document-level server list, so the output is not
byte-identical across runs. -/
theorem c6_counterexample :
    ModelRunEquiv c6M1 c6M2 ∧ buildDocument c6M1 1 ≠ buildDocument c6M2 1 := by
  constructor
  · refine ⟨?_, rfl⟩
    refine List.Forall₂.cons ⟨rfl, rfl, rfl, ?_⟩ List.Forall₂.nil
    refine List.Forall₂.cons ?_ (List.Forall₂.cons ?_ List.Forall₂.nil)
    · exact ⟨rfl, rfl, rfl, rfl, rfl, List.Perm.swap _ _ _⟩
    · exact ⟨rfl, rfl, rfl, rfl, rfl, List.Perm.refl _⟩
  · intro h
    have h2 := congrArg (Option.map (fun d => d.servers)) h
    have e1 : (buildDocument c6M1 1).map (fun d => d.servers) =
        some [⟨"http://h2"⟩, ⟨"http://h1"⟩] := rfl
    have e2 : (buildDocument c6M2 1).map (fun d => d.servers) =
        some [⟨"http://h1"⟩, ⟨"http://h2"⟩] := rfl
    rw [e1, e2] at h2
    exact absurd h2 (by decide)

theorem perm_length_le_one_eq {α : Type} {l1 l2 : List α}
    (h : l1.Perm l2) (hl : l1.length ≤ 1) : l1 = l2 := by
  cases l1 with
  | nil => exact (h.symm.eq_nil).symm
  | cons a t =>
      cases t with
      | nil => exact (List.perm_singleton.mp h.symm).symm
      | cons b u => simp at hl

theorem functionRunEquiv_eq {f g : ServiceFunction} (h : FunctionRunEquiv f g)
    (hl : f.httpAnns.length ≤ 1) : f = g := by
  obtain ⟨h1, h2, h3, h4, h5, h6⟩ := h
  have h7 := perm_length_le_one_eq h6 hl
  cases f; cases g; simp_all

theorem forall2_functions_eq : ∀ {l1 l2 : List ServiceFunction},
    List.Forall₂ FunctionRunEquiv l1 l2 →
    (∀ f ∈ l1, f.httpAnns.length ≤ 1) → l1 = l2 := by
  intro l1 l2 h
  induction h with
  | nil => intro _; rfl
  | cons hfg _ ih =>
      intro hl
      have he := functionRunEquiv_eq hfg (hl _ (List.mem_cons_self _ _))
      have ht := ih (fun f hf => hl f (List.mem_cons_of_mem _ hf))
      rw [he, ht]

theorem forall2_services_eq : ∀ {l1 l2 : List Service},
    List.Forall₂ ServiceRunEquiv l1 l2 →
    (∀ s ∈ l1, ∀ f ∈ s.functions, f.httpAnns.length ≤ 1) → l1 = l2 := by
  intro l1 l2 h
  induction h with
  | nil => intro _; rfl
  | @cons s t l1' l2' hst _ ih =>
      intro hl
      obtain ⟨h1, h2, h3, h4⟩ := hst
      have hfs := forall2_functions_eq h4 (hl s (List.mem_cons_self _ _))
      have he : s = t := by cases s; cases t; simp_all
      have ht := ih (fun s' hs' => hl s' (List.mem_cons_of_mem _ hs'))
      rw [he, ht]

/-- C6 amended: document generation is deterministic for every fixed input
IDL model in which each method carries at most one HTTP-verb annotation:
the verb-map iteration order (the only run-to-run variation in the source)
is then unique, and two independent runs produce identical documents. -/
theorem c6_deterministic_single_verb (m1 m2 : Model) (fuel : Nat)
    (h : ModelRunEquiv m1 m2)
    (hl : ∀ s ∈ m1.services, ∀ f ∈ s.functions, f.httpAnns.length ≤ 1) :
    buildDocument m1 fuel = buildDocument m2 fuel := by
  obtain ⟨hs, hst⟩ := h
  have hsv := forall2_services_eq hs hl
  have : m1 = m2 := by cases m1; cases m2; simp_all
  rw [this]

def c6WModel : Model :=
  { services := [{ name := "SW", functions :=
      [{ name := "FW", funcTypeName := "RespW", httpAnns := [("GET", "/w")] }] }],
    structs := [{ name := "RespW" }] }

/-- C6 witness: a single-verb model run against itself. -/
theorem c6_deterministic_single_verb_witness :
    buildDocument c6WModel 1 = buildDocument c6WModel 1 :=
  c6_deterministic_single_verb c6WModel c6WModel 1
    ⟨List.forall₂_same.mpr (fun s _ =>
      ⟨rfl, rfl, rfl, List.forall₂_same.mpr (fun f _ =>
        ⟨rfl, rfl, rfl, rfl, rfl, List.Perm.refl _⟩)⟩), rfl⟩
    (by intro s hs f hf; simp [c6WModel] at hs hf; rw [hs] at hf; simp at hf; rw [hf]; rfl)

/-! Observables and helper facts for the server pass. -/

def opServersEmpty : Option Operation → Bool
  | some op => op.servers.isEmpty
  | none => true

def pathOpsServersClear (p : PathItem) : Bool :=
  opServersEmpty p.get && opServersEmpty p.post && opServersEmpty p.put &&
  opServersEmpty p.delete && opServersEmpty p.patch && opServersEmpty p.options &&
  opServersEmpty p.head

/-- True when no operation anywhere in the document still carries an
operation-level server override. -/
def noOpLevelServers (d : Document) : Bool :=
  d.paths.all (fun npi => pathOpsServersClear npi.value)

/-- The five operation slots the server pass inspects, in source order. -/
def slotOps (p : PathItem) : List (Option Operation) :=
  [p.get, p.post, p.put, p.delete, p.patch]

def c7Occupied (v : PathItem) : Bool := (slotOps v).any Option.isSome

/-- The per-path effect of the server pass when every occupied inspected
slot carries exactly the single server u. -/
def c7Hoist (u : String) (v : PathItem) : PathItem :=
  if c7Occupied v then
    { v with servers := [⟨u⟩]
             get := clearOpServers v.get
             post := clearOpServers v.post
             put := clearOpServers v.put
             delete := clearOpServers v.delete
             patch := clearOpServers v.patch }
  else v

theorem appendUnique_nil (u : String) : appendUnique [] u = [u] := by
  simp [appendUnique]

theorem appendUnique_idem (l : List String) (u : String) :
    appendUnique (appendUnique l u) u = appendUnique l u := by
  by_cases h : l.contains u <;> simp_all [appendUnique]

theorem appendUnique_self (u : String) : appendUnique [u] u = [u] := by
  simp [appendUnique]

theorem serverPassPath_good (u : String) (done : List NamedPathItem)
    (A : List String) (npi : NamedPathItem)
    (hsrv : ∀ o ∈ slotOps npi.value, ∀ op, o = some op → op.servers = [⟨u⟩]) :
    serverPassPath (done, A) npi =
      (done ++ [⟨npi.name, c7Hoist u npi.value⟩],
       if c7Occupied npi.value then appendUnique A u else A) := by
  obtain ⟨name, v⟩ := npi
  have hget : ∀ op, v.get = some op → op.servers = [⟨u⟩] :=
    fun op h => hsrv v.get (by simp [slotOps]) op h
  have hpost : ∀ op, v.post = some op → op.servers = [⟨u⟩] :=
    fun op h => hsrv v.post (by simp [slotOps]) op h
  have hput : ∀ op, v.put = some op → op.servers = [⟨u⟩] :=
    fun op h => hsrv v.put (by simp [slotOps]) op h
  have hdel : ∀ op, v.delete = some op → op.servers = [⟨u⟩] :=
    fun op h => hsrv v.delete (by simp [slotOps]) op h
  have hpatch : ∀ op, v.patch = some op → op.servers = [⟨u⟩] :=
    fun op h => hsrv v.patch (by simp [slotOps]) op h
  rcases hg : v.get with _ | og <;> rcases hpo : v.post with _ | opo <;>
    rcases hpu : v.put with _ | opu <;> rcases hde : v.delete with _ | ode <;>
      rcases hpa : v.patch with _ | opa <;>
        simp_all [serverPassPath, collectOp, c7Hoist, c7Occupied, slotOps,
          appendUnique_nil, appendUnique_idem, appendUnique_self, clearOpServers]

theorem serverPass_fold_good (u : String) :
    ∀ (l : List NamedPathItem) (done : List NamedPathItem) (A : List String),
    (∀ npi ∈ l, ∀ o ∈ slotOps npi.value, ∀ op, o = some op → op.servers = [⟨u⟩]) →
    l.foldl serverPassPath (done, A) =
      (done ++ l.map (fun npi => ⟨npi.name, c7Hoist u npi.value⟩),
       l.foldl (fun A npi => if c7Occupied npi.value then appendUnique A u else A) A) := by
  intro l
  induction l with
  | nil => intro done A _; simp
  | cons npi rest ih =>
      intro done A hl
      simp only [List.foldl_cons, List.map_cons]
      rw [serverPassPath_good u done A npi (hl npi (List.mem_cons_self _ _)),
        ih _ _ (fun x hx => hl x (List.mem_cons_of_mem _ hx))]
      simp

theorem foldA_eq (u : String) :
    ∀ (l : List NamedPathItem) (A : List String),
    l.foldl (fun A npi => if c7Occupied npi.value then appendUnique A u else A) A =
      if l.any (fun npi => c7Occupied npi.value) then appendUnique A u else A := by
  intro l
  induction l with
  | nil => intro A; simp
  | cons x rest ih =>
      intro A
      simp only [List.foldl_cons, List.any_cons]
      by_cases hx : c7Occupied x.value
      · by_cases hr : rest.any (fun npi => c7Occupied npi.value) <;>
          simp [hx, hr, ih, appendUnique_idem]
      · simp [hx, ih]

theorem opServersEmpty_clear (o : Option Operation) :
    opServersEmpty (clearOpServers o) = true := by
  cases o <;> simp [opServersEmpty, clearOpServers]

theorem opServersEmpty_none : opServersEmpty none = true := rfl

/-- C7 amended: when every operation in the document sits in one of the
get/post/put/delete/patch slots (in particular when three operations across
two paths do) and every one declares the same single server URL, the server
pass leaves exactly one document-level server carrying that URL and clears
every path-level and operation-level server override.  (As stated over all
verbs the claim fails: the pass does not inspect the OPTIONS and HEAD
slots, so their overrides survive; see the counterexample.) -/
theorem c7_single_server_hoist (d : Document) (u : String)
    (hocc : ∀ npi ∈ d.paths, npi.value.options = none ∧ npi.value.head = none)
    (hsrv : ∀ npi ∈ d.paths, ∀ o ∈ slotOps npi.value, ∀ op, o = some op →
      op.servers = [⟨u⟩])
    (hsome : ∃ npi ∈ d.paths, ∃ o ∈ slotOps npi.value, o.isSome = true) :
    (serverPass d).servers = [⟨u⟩] ∧
    (∀ npi ∈ (serverPass d).paths, npi.value.servers = []) ∧
    noOpLevelServers (serverPass d) = true := by
  have hany : d.paths.any (fun npi => c7Occupied npi.value) = true := by
    obtain ⟨npi, hnpi, o, ho, hso⟩ := hsome
    refine List.any_eq_true.mpr ⟨npi, hnpi, ?_⟩
    exact List.any_eq_true.mpr ⟨o, ho, hso⟩
  unfold serverPass
  rw [serverPass_fold_good u d.paths [] [] hsrv, foldA_eq, hany]
  simp only [if_true, appendUnique_nil, List.nil_append, List.length_cons,
    List.length_nil, Nat.zero_add, gt_iff_lt, Nat.zero_lt_one, List.map_cons,
    List.map_nil, reduceIte]
  refine ⟨?_, ?_, ?_⟩
  · simp
  · intro npi hnpi
    simp only [List.map_map, List.mem_map] at hnpi
    obtain ⟨x, _, rfl⟩ := hnpi
    rfl
  · unfold noOpLevelServers
    rw [List.all_eq_true]
    intro npi hnpi
    simp only [List.map_map, List.mem_map] at hnpi
    obtain ⟨x, hx, rfl⟩ := hnpi
    have hxo := hocc x hx
    simp only [Function.comp]
    unfold pathOpsServersClear
    unfold c7Hoist
    by_cases hc : c7Occupied x.value
    · simp [hc, opServersEmpty_clear, hxo.1, hxo.2, opServersEmpty_none]
    · have hall : ∀ o ∈ slotOps x.value, o = none := by
        intro o ho
        cases o with
        | none => rfl
        | some op =>
            exact absurd (List.any_eq_true.mpr ⟨some op, ho, rfl⟩) hc
      have hg := hall x.value.get (by simp [slotOps])
      have hpo := hall x.value.post (by simp [slotOps])
      have hpu := hall x.value.put (by simp [slotOps])
      have hde := hall x.value.delete (by simp [slotOps])
      have hpa := hall x.value.patch (by simp [slotOps])
      simp [hc, hg, hpo, hpu, hde, hpa, hxo.1, hxo.2, opServersEmpty_none]

def c7Resp : StructDesc := { name := "Resp7" }

def c7G1 : ServiceFunction :=
  { name := "G1", annotations := [(ApiBaseURL, ["ex.com"])], funcTypeName := "Resp7",
    httpAnns := [("GET", "/a")] }

def c7G2 : ServiceFunction := { c7G1 with name := "G2", httpAnns := [("POST", "/a")] }

def c7G3 : ServiceFunction := { c7G1 with name := "G3", httpAnns := [("HEAD", "/b")] }

def c7M : Model :=
  { services := [{ name := "S7", functions := [c7G1, c7G2, c7G3] }], structs := [c7Resp] }

/-- C7 counterexample: three operations (GET /a, POST /a, HEAD /b) across
two paths all declare the same single server URL, yet the final document
still contains an operation-level server override: the server pass never
inspects the HEAD slot, so the HEAD operation keeps its server list. -/
theorem c7_counterexample :
    (buildDocument c7M 1).map (fun d => d.servers) = some [⟨"http://ex.com"⟩] ∧
    (buildDocument c7M 1).map noOpLevelServers = some false :=
  ⟨rfl, by decide⟩

def c7WOp : Operation := { servers := [⟨"http://u"⟩] }

def c7WDoc : Document :=
  { paths := [⟨"/a", { get := some c7WOp, post := some c7WOp }⟩,
              ⟨"/b", { patch := some c7WOp }⟩] }

/-- C7 witness: three operations across two paths in the inspected slots,
all with the same single URL, are hoisted to one document-level server with
no remaining overrides. -/
theorem c7_single_server_hoist_witness :
    (serverPass c7WDoc).servers = [⟨"http://u"⟩] ∧
    (∀ npi ∈ (serverPass c7WDoc).paths, npi.value.servers = []) ∧
    noOpLevelServers (serverPass c7WDoc) = true := by
  refine c7_single_server_hoist c7WDoc "http://u" ?_ ?_ ?_
  · intro npi h
    simp [c7WDoc] at h
    rcases h with rfl | rfl <;> exact ⟨rfl, rfl⟩
  · intro npi h
    simp [c7WDoc] at h
    rcases h with rfl | rfl <;>
      · intro o ho op hop
        simp [slotOps] at ho
        rcases ho with rfl | rfl | rfl | rfl | rfl <;> cases hop
        all_goals rfl
  · refine ⟨⟨"/a", { get := some c7WOp, post := some c7WOp }⟩, by simp [c7WDoc],
      some c7WOp, by simp [slotOps], rfl⟩

/-! The cyclic-struct model for the schema dependency closure: struct A
references itself, and an operation's input struct carries an api.body
field of type A, so A becomes a required schema. -/

def c1StructA : StructDesc :=
  { name := "A", fields := [{ name := "a", type := .structRef "A" }] }

def c1StructIn : StructDesc :=
  { name := "In1",
    fields := [{ name := "x", type := .structRef "A", annotations := [(ApiBody, ["x"])] }] }

def c1Fun : ServiceFunction :=
  { name := "FC", args := ["In1"], funcTypeName := "RespC", httpAnns := [("POST", "/p")] }

def c1Env : Model :=
  { services := [{ name := "SC", functions := [c1Fun] }],
    structs := [c1StructIn, c1StructA, { name := "RespC" }] }

theorem c1_selfloop : ∀ (fuel : Nat) (st : GenState) (d : Document),
    addSchemasForStructs c1Env fuel [some c1StructA] st d = none := by
  intro fuel
  induction fuel with
  | zero => intro st d; rfl
  | succ fuel ih =>
      intro st d
      have hn : nestedStructs c1Env c1StructA.fields = [some c1StructA] := rfl
      simp only [addSchemasForStructs, hn, ih, Option.bind_eq_bind, Option.none_bind]

theorem c1_structs_none : ∀ (fuel : Nat) (st : GenState) (d : Document),
    addSchemasForStructs c1Env fuel (c1Env.structs.map some) st d = none := by
  intro fuel st d
  cases fuel with
  | zero => rfl
  | succ fuel =>
      have hlist : c1Env.structs.map some =
          some c1StructIn :: [some c1StructA, some { name := "RespC" }] := rfl
      have hn : nestedStructs c1Env c1StructIn.fields = [some c1StructA] := rfl
      rw [hlist]
      simp only [addSchemasForStructs, hn, c1_selfloop fuel, Option.bind_eq_bind,
        Option.none_bind]

theorem c1_loop_none : ∀ (fuel : Nat) (st : GenState) (d : Document),
    st.required.isEmpty = false → schemaLoop c1Env fuel st d = none := by
  intro fuel st d h
  cases fuel with
  | zero => simp [schemaLoop, h]
  | succ fuel => simp [schemaLoop, h, c1_structs_none fuel]

/-- C1: the claim asserts that the component-schema closure contains exactly
one entry per reachable struct even for self-referential structs; on the
cyclic model the source instead recurses through the nested-struct walk of
addSchemasForStructsToDocument without a visited-set guard and never
terminates: the fuel-indexed model fails for every fuel, so no document is
produced at all. -/
theorem c1_cycle_divergence : ∀ fuel : Nat, buildDocument c1Env fuel = none := by
  intro fuel
  have hmid : (addPathsToDocument c1Env {}
      { openapi := "3.0.3", infoTitle := "API", infoDescription := "API description",
        infoVersion := "1.0.0" }).map (fun p => p.1.required) = some ["A"] := rfl
  unfold buildDocument
  rcases hA : addPathsToDocument c1Env {}
      { openapi := "3.0.3", infoTitle := "API", infoDescription := "API description",
        infoVersion := "1.0.0" } with _ | ⟨st, d⟩
  · rw [hA] at hmid
    simp at hmid
  · rw [hA] at hmid
    simp at hmid
    have hst : st.required.isEmpty = false := by rw [hmid]; rfl
    simp [hA, c1_loop_none fuel st d hst]

end ThriftSwagger
